import Mathlib

/-!
Verification of the TD Snap pageset storage and layout-allocation engine
(`td_utils_simple.py`, with the color palette from `colour_simple.py`).

The SQLite database is embedded as a `Store` value holding the rows of the
five linked tables (`Page`, `PageLayout`, `Button`, `ElementReference`,
`ElementPlacement`, `CommandSequence`) plus the `sqlite_sequence` high-water
marks for the two AUTOINCREMENT tables the code reads (`Button`,
`ElementReference`).  Text columns that the code parses back are kept in
parsed form: `GridPosition` (written as "c,r" and split on the comma) is a
pair of naturals, and `PageLayoutSetting` (a comma-packed integer string of
which the code reads the first two fields) is a list of naturals.

Python functions that open a connection, mutate and commit become pure
functions from `Store` to `Store`; functions that can raise become
`Except DbError` (the `DbError` constructors carry exactly the data the
Python `ValueError` messages are formatted from; `error_message` renders
them as the source does).  `conn.rollback()` in the `except` branch of
`add_buttons_from_pptx` is modelled by returning the original store
untouched next to the error.
-/

/-- One row of the `Page` table: `Id`, `Title`. -/
structure PageRow where
  id : Nat
  title : String
deriving DecidableEq

/-- One row of the `PageLayout` table.  `setting` holds the comma-packed
integers of the `PageLayoutSetting` text column in order; the code reads
`setting[1].split(',')[:2]`, i.e. the first two entries. -/
structure PageLayoutRow where
  id : Nat
  pageId : Nat
  setting : List Nat
deriving DecidableEq

/-- One row of the `Button` table (the columns the engine writes or reads;
the `UniqueId` uuid column is write-only noise and is omitted). -/
structure ButtonRow where
  id : Nat
  label : Option String
  message : Option String
  imageOwnership : Nat
  labelOwnership : Nat
  elementReferenceId : Nat
  librarySymbolId : Option Nat
deriving DecidableEq

/-- One row of the `ElementReference` table. -/
structure ElementReferenceRow where
  id : Nat
  elementType : Nat
  foregroundColor : String
  backgroundColor : Nat
  audioCueRecordingId : Nat
  pageId : Nat
deriving DecidableEq

/-- One row of the `ElementPlacement` table.  `gridPosition` is the parsed
form of the `"c,r"` text the code writes and re-parses. -/
structure ElementPlacementRow where
  id : Nat
  gridPosition : Nat × Nat
  gridSpan : String
  visible : String
  elementReferenceId : Nat
  pageLayoutId : Nat
deriving DecidableEq

/-- One row of the `CommandSequence` table. -/
structure CommandSequenceRow where
  serializedCommands : String
  buttonId : Nat
deriving DecidableEq

/-- The embedded database: the five content tables plus the
`sqlite_sequence` marks for the AUTOINCREMENT tables `Button` and
`ElementReference` (`none` when the table has never been written). -/
structure Store where
  pages : List PageRow
  pageLayouts : List PageLayoutRow
  buttons : List ButtonRow
  elementReferences : List ElementReferenceRow
  elementPlacements : List ElementPlacementRow
  commandSequences : List CommandSequenceRow
  seqButton : Option Nat
  seqElementReference : Option Nat
deriving DecidableEq

/-- Errors raised by the engine.  Each constructor carries the data the
Python `ValueError` message is formatted from; `simulatedWrite` stands for
a storage-level failure injected mid-batch (the spec's fault scenario). -/
inductive DbError where
  | noPage : DbError
  | multiplePage : List String → DbError
  | capacity : Nat → Nat → Nat → Nat → DbError
  | indexError : DbError
  | simulatedWrite : DbError
deriving DecidableEq

deriving instance DecidableEq for Except

/-- Renders a `DbError` as the corresponding Python exception message. -/
def error_message : DbError → String
  | .noPage => "Error: Couldn't find Page row"
  | .multiplePage titles =>
      "Error: Found multiple Page IDs in file: " ++ String.intercalate (", ") titles
  | .capacity required available shortage limitingLayout =>
      "Not enough grid space!\n\nRequired: " ++ toString required ++
      " cells\nAvailable: " ++ toString available ++
      " cells (limited by layout " ++ toString limitingLayout ++
      ")\nShortage: " ++ toString shortage ++ " cells"
  | .indexError => "list index out of range"
  | .simulatedWrite => "simulated write error"

/-- The color palette `SLIDE_COLORS` of `colour_simple.py`. -/
def SLIDE_COLORS : List Nat :=
  [4294951115, 4294934323, 4294945095, 4294956885, 4294956630,
   4294946615, 4294935067, 4294951370, 4294967040, 4289374890,
   4291624735, 4286611584, 4294962099, 4290822336, 4282477025,
   4286578816, 4290019584, 4294309340, 4280150535, 4287245282]

/-- `get_color_for_slide`: colors cycle with slide number (1-based);
`(slide_num - 1) % len(SLIDE_COLORS)` with Python's non-negative `%`. -/
def get_color_for_slide (slide_num : Int) : Nat :=
  ((SLIDE_COLORS.get? ((slide_num - 1) % (SLIDE_COLORS.length : Int)).toNat).getD 0)

/-- The page titles `get_page_layout_details` ignores. -/
def rows_to_ignore : List String := ["Dashboard", "Message Bar"]

/-- The `Page` rows whose `Title` is not in `rows_to_ignore`. -/
def qualifying_pages (s : Store) : List PageRow :=
  s.pages.filter (fun p => !(rows_to_ignore.contains p.title))

/-- `get_page_layout_details`: resolves the single content page and its
layouts `(pageLayoutId, num_columns, num_rows)`, the latter two taken from
the first two packed integers of `PageLayoutSetting`. -/
def get_page_layout_details (s : Store) :
    Except DbError (Nat × List (Nat × Nat × Nat)) :=
  match qualifying_pages s with
  | [] => .error .noPage
  | [row] =>
      let settings := s.pageLayouts.filter (fun l => l.pageId == row.id)
      .ok (row.id, settings.map (fun l => (l.id, l.setting.getD 0 0, l.setting.getD 1 0)))
  | rows => .error (.multiplePage (rows.map (·.title)))

/-- `npages`: the hardcoded number of chained pages. -/
def npages : Nat := 10

/-- The exclusion predicate of `find_available_positions`: bottom right of
any page, or top right of any page except the first. -/
def reserved_cell (ncols nrows c r : Nat) : Bool :=
  (c == ncols - 1 && r % nrows == nrows - 1) ||
  (c == ncols - 1 && r % nrows == 0 && r != 0)

/-- The candidate coordinates enumerated by the comprehension in
`find_available_positions`, before the exclusion filter: outer loop over
`r in range(nrows * npages)`, inner loop over `c in range(ncols)`. -/
def all_candidates (ncols nrows : Nat) : List (Nat × Nat) :=
  (List.range (nrows * npages)).flatMap (fun r => (List.range ncols).map (fun c => (c, r)))

/-- The candidate coordinates of `find_available_positions` after removing
reserved cells (the `if not (...)` filter of the comprehension). -/
def all_positions (ncols nrows : Nat) : List (Nat × Nat) :=
  (all_candidates ncols nrows).filter (fun p => !(reserved_cell ncols nrows p.1 p.2))

/-- The parsed `GridPosition` values of the `ElementPlacement` rows of one
layout (`SELECT GridPosition FROM ElementPlacement WHERE PageLayoutId = ?`). -/
def occupied_positions (s : Store) (pageLayoutId : Nat) : List (Nat × Nat) :=
  (s.elementPlacements.filter (fun p => p.pageLayoutId == pageLayoutId)).map (·.gridPosition)

/-- `find_available_positions`: candidates minus occupied, order preserved. -/
def find_available_positions (s : Store) (pageLayoutId ncols nrows : Nat) : List (Nat × Nat) :=
  (all_positions ncols nrows).filter (fun pos => !((occupied_positions s pageLayoutId).contains pos))

/-- The `message.replace('\n', ' ').replace('\r', ' ')` normalization of
`add_button` (single-character replacement, hence a character map). -/
def strip_newlines (s : String) : String :=
  String.mk (s.data.map (fun ch => if ch == '\n' || ch == '\r' then ' ' else ch))

/-- `add_button`: the `Button` row inserted for one item. -/
def add_button (buttonId refId : Nat) (label message : Option String)
    (symbol : Option Nat) : ButtonRow :=
  { id := buttonId
    label := label
    message := message.map strip_newlines
    imageOwnership := if symbol = none then 0 else 3
    labelOwnership := if label = none then 0 else 3
    elementReferenceId := refId
    librarySymbolId := symbol }

/-- The fixed serialized "speak message" command payload. -/
def speak_message_payload : String :=
  "\x7b\"$type\":\"1\",\"$values\":[\x7b\"$type\":\"3\",\"MessageAction\":0\x7d]\x7d"

/-- `add_command_speak_message`: the `CommandSequence` row for one button. -/
def add_command_speak_message (buttonId : Nat) : CommandSequenceRow :=
  { serializedCommands := speak_message_payload, buttonId := buttonId }

/-- The constant foreground color of `add_element_reference`. -/
def standard_foreground_color : String := "-14934754"

/-- `add_element_reference`: the `ElementReference` row for one item. -/
def add_element_reference (refId pageId : Nat) (color : Nat) : ElementReferenceRow :=
  { id := refId
    elementType := 0
    foregroundColor := standard_foreground_color
    backgroundColor := color
    audioCueRecordingId := 0
    pageId := pageId }

/-- `add_button_placement`: the `ElementPlacement` row placing one content
reference on one layout (`rowId` is the rowid SQLite auto-assigns, since
the INSERT does not list the `Id` column). -/
def add_button_placement (rowId pageLayoutId elementRefId : Nat)
    (position : Nat × Nat) : ElementPlacementRow :=
  { id := rowId
    gridPosition := position
    gridSpan := "1,1"
    visible := "1"
    elementReferenceId := elementRefId
    pageLayoutId := pageLayoutId }

/-- `get_next_id`: `seq + 1` from `sqlite_sequence`, or `1` when the table
has never been written (no row in `sqlite_sequence`). -/
def get_next_id : Option Nat → Nat
  | none => 1
  | some seq => seq + 1

/-- SQLite bumps an AUTOINCREMENT table's `sqlite_sequence` entry to the
largest id ever inserted; inserting rows with explicit ids `ids` updates
the mark accordingly (no change when `ids` is empty). -/
def bump_seq (seq : Option Nat) (ids : List Nat) : Option Nat :=
  ids.foldl (fun acc i => some (max (acc.getD 0) i)) seq

/-- The rowid SQLite auto-assigns on insert into `ElementPlacement`: one
more than the largest existing id. -/
def next_auto_id (rows : List ElementPlacementRow) : Nat :=
  (rows.map (·.id)).foldl max 0 + 1

/-- A content item `(label, message, slide_num)` from the PowerPoint side. -/
abbrev ButtonData := String × String × Int

/-- The `layouts_to_use` filter of `add_buttons_from_pptx`: all layouts
when `selected_layout_ids` is `None`, else those whose id is selected. -/
def selected_layouts (layouts : List (Nat × Nat × Nat)) (sel : Option (List Nat)) :
    List (Nat × Nat × Nat) :=
  match sel with
  | none => layouts
  | some ids => layouts.filter (fun l => ids.contains l.1)

/-- The free-cell count of one layout `(id, ncols, nrows)`, as computed by
the capacity loop of `add_buttons_from_pptx`. -/
def layout_free_count (s : Store) (l : Nat × Nat × Nat) : Nat :=
  (find_available_positions s l.1 l.2.1 l.2.2).length

/-- One iteration of the capacity loop: update `(min_available,
limiting_layout)` when this layout has strictly fewer free cells; `none`
plays the role of the initial `float('inf')` / `None` pair. -/
def scan_step (s : Store) (acc : Option (Nat × (Nat × Nat × Nat)))
    (l : Nat × Nat × Nat) : Option (Nat × (Nat × Nat × Nat)) :=
  match acc with
  | none => some (layout_free_count s l, l)
  | some ml => if layout_free_count s l < ml.1 then some (layout_free_count s l, l) else some ml

/-- The capacity loop of `add_buttons_from_pptx` over the selected layouts. -/
def capacity_scan (s : Store) (ls : List (Nat × Nat × Nat)) :
    Option (Nat × (Nat × Nat × Nat)) :=
  ls.foldl (scan_step s) none

/-- The `position = available_positions[i]` reads of the placement loop:
for items `i, i+1, ...` (second argument counts the remaining items),
failing like Python's `IndexError` when the index is out of range. -/
def positions_for (avail : List (Nat × Nat)) : Nat → Nat → Except DbError (List (Nat × Nat))
  | _, 0 => .ok []
  | i, rem + 1 =>
    match avail[i]? with
    | none => .error .indexError
    | some pos =>
      match positions_for avail (i + 1) rem with
      | .error e => .error e
      | .ok rest => .ok (pos :: rest)

/-- The outer placement loop of `add_buttons_from_pptx`: for each selected
layout, recompute its free positions (through a fresh connection, hence
against the committed store `s`) and read one position per item. -/
def place_layouts (s : Store) (count : Nat) :
    List (Nat × Nat × Nat) → Except DbError (List (Nat × List (Nat × Nat)))
  | [] => .ok []
  | l :: rest =>
    match positions_for (find_available_positions s l.1 l.2.1 l.2.2) 0 count with
    | .error e => .error e
    | .ok ps =>
      match place_layouts s count rest with
      | .error e => .error e
      | .ok more => .ok ((l.1, ps) :: more)

/-- Fault injection point modelling the spec's "simulated write error on
item k" scenario inside the row-insert loop; `none` (no injected fault) is
the behaviour of the source. -/
def fault_check (failAt : Option Nat) (n : Nat) : Except DbError Unit :=
  match failAt with
  | none => .ok ()
  | some k => if k < n then .error .simulatedWrite else .ok ()

/-- The `Button` rows written by the item loop: 0-based item `i` gets id
`buttonId0 + i` and references `refId0 + i`. -/
def new_buttons (buttonId0 refId0 : Nat) (bd : List ButtonData) : List ButtonRow :=
  bd.enum.map (fun p => add_button (buttonId0 + p.1) (refId0 + p.1) (some (p.2.1)) (some (p.2.2.1)) none)

/-- The `CommandSequence` rows written by the item loop. -/
def new_commands (buttonId0 : Nat) (bd : List ButtonData) : List CommandSequenceRow :=
  bd.enum.map (fun p => add_command_speak_message (buttonId0 + p.1))

/-- The `ElementReference` rows written by the item loop, colored by slide. -/
def new_references (refId0 pageId : Nat) (bd : List ButtonData) : List ElementReferenceRow :=
  bd.enum.map (fun p => add_element_reference (refId0 + p.1) pageId (get_color_for_slide (p.2.2.2)))

/-- The `ElementPlacement` rows written by the placement loops: layout
`lid` with per-item positions `ps` contributes one row per item `j`
pointing at `refId0 + j`, rowids assigned sequentially from the auto-id
watermark of the placement table of `s`. -/
def placement_rows (s : Store) (refId0 : Nat)
    (placed : List (Nat × List (Nat × Nat))) : List ElementPlacementRow :=
  let pairs := placed.flatMap (fun lp => lp.2.enum.map (fun jp => (lp.1, refId0 + jp.1, jp.2)))
  pairs.enum.map (fun kp =>
    add_button_placement (next_auto_id s.elementPlacements + kp.1) (kp.2.1) (kp.2.2.1) (kp.2.2.2))

/-- The committed store produced by a successful run of the write phase of
`add_buttons_from_pptx`: captures the two id watermarks once, appends one
Button, one CommandSequence and one ElementReference row per item, and the
placement rows computed per selected layout. -/
def insert_result (s : Store) (bd : List ButtonData) (pageId : Nat)
    (placed : List (Nat × List (Nat × Nat))) : Store :=
  let buttonId0 := get_next_id s.seqButton
  let refId0 := get_next_id s.seqElementReference
  { s with
      buttons := s.buttons ++ new_buttons buttonId0 refId0 bd
      commandSequences := s.commandSequences ++ new_commands buttonId0 bd
      elementReferences := s.elementReferences ++ new_references refId0 pageId bd
      elementPlacements := s.elementPlacements ++ placement_rows s refId0 placed
      seqButton := bump_seq s.seqButton ((new_buttons buttonId0 refId0 bd).map (·.id))
      seqElementReference :=
        bump_seq s.seqElementReference ((new_references refId0 pageId bd).map (·.id)) }

/-- The write phase of `add_buttons_from_pptx` (everything after the
capacity check): run the item-insert loop (fault injection point), then
the per-layout placement loop, and commit. -/
def add_buttons_write (failAt : Option Nat) (s : Store) (bd : List ButtonData)
    (pageId : Nat) (layouts_to_use : List (Nat × Nat × Nat)) :
    Except DbError (Store × Nat) :=
  match fault_check failAt bd.length with
  | .error e => .error e
  | .ok _ =>
    match place_layouts s bd.length layouts_to_use with
    | .error e => .error e
    | .ok placed => .ok (insert_result s bd pageId placed, bd.length)

/-- The body of the `try` block of `add_buttons_from_pptx`: resolve page
and layouts, filter to the selected ones, run the capacity check (which
raises carrying required/available/shortage/limiting layout id), then
write. -/
def add_buttons_core (failAt : Option Nat) (s : Store) (bd : List ButtonData)
    (sel : Option (List Nat)) : Except DbError (Store × Nat) :=
  match get_page_layout_details s with
  | .error e => .error e
  | .ok pl =>
    match capacity_scan s (selected_layouts pl.2 sel) with
    | some ml =>
      if ml.1 < bd.length then
        .error (.capacity bd.length ml.1 (bd.length - ml.1) (ml.2.1))
      else add_buttons_write failAt s bd pl.1 (selected_layouts pl.2 sel)
    | none => add_buttons_write failAt s bd pl.1 (selected_layouts pl.2 sel)

/-- `add_buttons_from_pptx` with the fault-injection point exposed: the
empty-input early return, then the `try`/`except`/`rollback` wrapper —
on success the committed store and the count, on any exception the
original store next to the re-raised error. -/
def add_buttons_from_pptx_with (failAt : Option Nat) (s : Store) (bd : List ButtonData)
    (sel : Option (List Nat)) : Store × Except DbError Nat :=
  if bd.isEmpty then (s, .ok 0)
  else
    match add_buttons_core failAt s bd sel with
    | .ok sn => (sn.1, .ok sn.2)
    | .error e => (s, .error e)

/-- `add_buttons_from_pptx` as in the source (no injected fault). -/
def add_buttons_from_pptx (s : Store) (bd : List ButtonData)
    (sel : Option (List Nat)) : Store × Except DbError Nat :=
  add_buttons_from_pptx_with none s bd sel

/-- The per-layout duplicates of the home placement row: one copy for each
target layout, with the rowid SQLite assigns on successive inserts (the
auto-id watermark of `pls0` plus the copy's index) and `PageLayoutId`
rewritten to that layout's id. -/
def home_copies (pls0 : List ElementPlacementRow) (existing : ElementPlacementRow)
    (layouts : List (Nat × Nat × Nat)) : List ElementPlacementRow :=
  layouts.enum.map
    (fun kl => { existing with id := next_auto_id pls0 + kl.1, pageLayoutId := kl.2.1 })

/-- The home-placement duplication step of `add_home_button`: look up the
`Home` button (first row, like `fetchone`), find its first placement row,
duplicate it once per target layout (`home_copies`), then delete the
original row.  When either lookup finds nothing, the placement table is
left as copied. -/
def home_duplicate (pls0 : List ElementPlacementRow) (buttons : List ButtonRow)
    (layouts : List (Nat × Nat × Nat)) : List ElementPlacementRow :=
  match (buttons.filter (fun b => b.label == some ("Home"))).head? with
  | none => pls0
  | some hb =>
    match (pls0.filter (fun p => p.elementReferenceId == hb.elementReferenceId)).head? with
    | none => pls0
    | some existing =>
      (pls0 ++ home_copies pls0 existing layouts).filter (fun p => p.id != existing.id)

/-- `add_home_button`: resolve the target's page and layouts, return
unchanged if any Button exists, else bulk-copy the template's four tables,
rewrite every ElementReference's PageId, then run the home-placement
duplication of `home_duplicate`. -/
def add_home_button (target template : Store) : Except DbError Store :=
  match get_page_layout_details target with
  | .error e => .error e
  | .ok pl =>
    if target.buttons.length > 0 then
      .ok target
    else
      .ok { target with
              buttons := target.buttons ++ template.buttons
              elementReferences := (target.elementReferences ++ template.elementReferences).map
                (fun r => { r with pageId := pl.1 })
              elementPlacements := home_duplicate
                (target.elementPlacements ++ template.elementPlacements)
                (target.buttons ++ template.buttons) pl.2
              commandSequences := target.commandSequences ++ template.commandSequences
              seqButton := bump_seq target.seqButton (template.buttons.map (·.id))
              seqElementReference :=
                bump_seq target.seqElementReference (template.elementReferences.map (·.id)) }

/-- Whether row index `r` carries a reserved cell in the last column:
bottom row of its page, or top row of a page other than the first. -/
def row_reserved (nrows r : Nat) : Bool :=
  (r % nrows == nrows - 1) || (r % nrows == 0 && r != 0)

/-- The number of candidate coordinates `find_available_positions` excludes
as reserved. -/
def excluded_count (ncols nrows : Nat) : Nat :=
  (all_candidates ncols nrows).countP (fun p => reserved_cell ncols nrows p.1 p.2)

/-- Strict row-major order on grid coordinates `(col, row)`: earlier row
first, then earlier column within a row. -/
def row_major_lt (p q : Nat × Nat) : Prop :=
  p.2 < q.2 ∨ (p.2 = q.2 ∧ p.1 < q.1)

/-- The `(PageLayoutId, GridPosition)` key of each placement row; the
"no two Placements of one Layout share a coordinate" invariant is
`Nodup` of these keys. -/
def placement_keys (pls : List ElementPlacementRow) : List (Nat × (Nat × Nat)) :=
  pls.map (fun p => (p.pageLayoutId, p.gridPosition))

/-! ### Concrete stores used as witnesses -/

/-- A pageset with one content page, one `2 × 2` layout and a single
placement at the origin. -/
def store_alloc : Store :=
  { pages := [⟨1, "Target"⟩]
    pageLayouts := [⟨10, 1, [2, 2]⟩]
    buttons := []
    elementReferences := []
    elementPlacements := [⟨5, (0, 0), "1,1", "1", 7, 10⟩]
    commandSequences := []
    seqButton := none
    seqElementReference := none }

/-- An empty pageset with one content page and one `2 × 2` layout
(21 free coordinates). -/
def store_empty22 : Store :=
  { pages := [⟨1, "Board"⟩]
    pageLayouts := [⟨10, 1, [2, 2]⟩]
    buttons := []
    elementReferences := []
    elementPlacements := []
    commandSequences := []
    seqButton := none
    seqElementReference := none }

/-- An empty pageset whose single `1 × 2` layout has exactly one free
coordinate (`1 * 2 * 10 - 19 = 1`). -/
def store_small : Store :=
  { pages := [⟨1, "Board"⟩]
    pageLayouts := [⟨20, 1, [1, 2]⟩]
    buttons := []
    elementReferences := []
    elementPlacements := []
    commandSequences := []
    seqButton := none
    seqElementReference := none }

/-- A pageset with two qualifying pages (a configuration error). -/
def store_multi : Store :=
  { pages := [⟨1, "A"⟩, ⟨2, "B"⟩, ⟨3, "Dashboard"⟩]
    pageLayouts := []
    buttons := []
    elementReferences := []
    elementPlacements := []
    commandSequences := []
    seqButton := none
    seqElementReference := none }

/-- A store that already holds a button but has no qualifying page at all. -/
def store_button_no_page : Store :=
  { pages := []
    pageLayouts := []
    buttons := [⟨1, some ("Hi"), none, 0, 3, 4, none⟩]
    elementReferences := []
    elementPlacements := []
    commandSequences := []
    seqButton := some 1
    seqElementReference := none }

/-- A well-formed pageset that already holds a (non-home) button. -/
def store_with_button : Store :=
  { pages := [⟨1, "Board"⟩]
    pageLayouts := [⟨10, 1, [2, 2]⟩]
    buttons := [⟨1, some ("Hi"), none, 0, 3, 4, none⟩]
    elementReferences := []
    elementPlacements := []
    commandSequences := []
    seqButton := some 1
    seqElementReference := none }

/-- A template holding one content reference but no Button at all. -/
def store_refs_only : Store :=
  { pages := []
    pageLayouts := []
    buttons := []
    elementReferences := [⟨50, 0, "-14934754", 123, 0, 9⟩]
    elementPlacements := []
    commandSequences := []
    seqButton := none
    seqElementReference := some 50 }

/-- A migration target: empty pageset with three layouts. -/
def store_home_target : Store :=
  { pages := [⟨1, "Board"⟩]
    pageLayouts := [⟨11, 1, [2, 2]⟩, ⟨12, 1, [3, 3]⟩, ⟨13, 1, [2, 3]⟩]
    buttons := []
    elementReferences := []
    elementPlacements := []
    commandSequences := []
    seqButton := none
    seqElementReference := none }

/-- A home-button template: one `Home` button with one reference and one
placement on the template's own layout `99`. -/
def store_home_template : Store :=
  { pages := []
    pageLayouts := []
    buttons := [⟨1, some ("Home"), none, 3, 3, 50, some 77⟩]
    elementReferences := [⟨50, 0, "-14934754", 123, 0, 9⟩]
    elementPlacements := [⟨7, (1, 1), "1,1", "1", 50, 99⟩]
    commandSequences := [⟨"payload", 1⟩]
    seqButton := some 1
    seqElementReference := some 50 }

/-! ### Counting helpers for the reserved-cell analysis -/

lemma sum_indicator {α : Type _} (p : α → Bool) (l : List α) :
    (l.map (fun a => if p a then 1 else 0)).sum = l.countP p := by
  induction l with
  | nil => rfl
  | cons a t ih =>
    rw [List.map_cons, List.sum_cons, ih, List.countP_cons]
    by_cases h : p a <;> simp [h, Nat.add_comm]

lemma countP_beq_range (a m : Nat) :
    List.countP (fun s => s == a) (List.range m) = if a < m then 1 else 0 := by
  induction m with
  | zero => simp
  | succ m ih =>
    rw [List.range_succ, List.countP_append, ih]
    simp only [List.countP_cons, List.countP_nil, beq_iff_eq]
    split_ifs <;> omega

lemma countP_or_disjoint {α : Type _} (p q : α → Bool) (l : List α)
    (h : ∀ x ∈ l, ¬(p x = true ∧ q x = true)) :
    List.countP (fun x => p x || q x) l = List.countP p l + List.countP q l := by
  induction l with
  | nil => rfl
  | cons a t ih =>
    rw [List.countP_cons, List.countP_cons, List.countP_cons,
      ih (fun x hx => h x (List.mem_cons_of_mem a hx))]
    have ha := h a (List.mem_cons_self a t)
    by_cases hp : p a <;> by_cases hq : q a <;> simp [hp, hq] at ha ⊢ <;> omega

lemma reserved_cell_factor (ncols nrows c r : Nat) :
    reserved_cell ncols nrows c r = ((c == ncols - 1) && row_reserved nrows r) := by
  simp [reserved_cell, row_reserved, Bool.and_or_distrib_left, Bool.and_assoc]

lemma length_range_map_const (m k : Nat) :
    ((List.range m).map (fun _ => k)).sum = m * k := by
  induction m with
  | zero => simp
  | succ m ih =>
    rw [List.range_succ, List.map_append, List.sum_append, ih]
    simp [Nat.succ_mul]

lemma length_all_candidates (ncols nrows : Nat) :
    (all_candidates ncols nrows).length = ncols * nrows * npages := by
  unfold all_candidates
  rw [List.length_flatMap]
  have h : ((List.range (nrows * npages)).map
      (List.length ∘ fun r => (List.range ncols).map fun c => (c, r))) =
      (List.range (nrows * npages)).map (fun _ => ncols) := by
    apply List.map_congr_left
    intro r _
    simp
  rw [h, length_range_map_const]
  ring

lemma excluded_count_eq_row_count (ncols nrows : Nat) (hc : 1 ≤ ncols) :
    excluded_count ncols nrows =
      (List.range (nrows * npages)).countP (row_reserved nrows) := by
  unfold excluded_count all_candidates
  rw [List.countP_flatMap]
  have hmap : ((List.range (nrows * npages)).map
      ((List.countP fun p => reserved_cell ncols nrows p.1 p.2) ∘
        fun r => (List.range ncols).map fun c => (c, r))) =
      (List.range (nrows * npages)).map (fun r => if row_reserved nrows r then 1 else 0) := by
    apply List.map_congr_left
    intro r _
    simp only [Function.comp]
    rw [List.countP_map]
    have hcomp : ((fun p => reserved_cell ncols nrows p.1 p.2) ∘ (fun c => (c, r))) =
        fun c => ((c == ncols - 1) && row_reserved nrows r) := by
      funext c
      simp [Function.comp, reserved_cell_factor]
    rw [hcomp]
    cases hr : row_reserved nrows r
    · simp
    · simp only [Bool.and_true]
      rw [countP_beq_range]
      have : ncols - 1 < ncols := by omega
      simp [this]
  rw [hmap, sum_indicator]

lemma countP_row_reserved_base (nrows : Nat) (h : 2 ≤ nrows) :
    (List.range nrows).countP (row_reserved nrows) = 1 := by
  have hcongr : (List.range nrows).countP (row_reserved nrows) =
      (List.range nrows).countP (fun s => s == nrows - 1) := by
    apply List.countP_congr
    intro x hx
    simp only [List.mem_range] at hx
    simp only [row_reserved, Nat.mod_eq_of_lt hx, Bool.or_eq_true, Bool.and_eq_true,
      beq_iff_eq, bne_iff_ne, ne_eq]
    omega
  rw [hcongr, countP_beq_range]
  have : nrows - 1 < nrows := by omega
  simp [this]

lemma countP_row_reserved_block (nrows k : Nat) (h2 : 2 ≤ nrows) (hk : 1 ≤ k) :
    ((List.range nrows).map (fun s => nrows * k + s)).countP (row_reserved nrows) = 2 := by
  rw [List.countP_map]
  have hpos : 0 < nrows * k := Nat.mul_pos (by omega) (by omega)
  have hcongr : (List.range nrows).countP ((row_reserved nrows) ∘ (fun s => nrows * k + s)) =
      (List.range nrows).countP (fun s => (s == nrows - 1) || (s == 0)) := by
    apply List.countP_congr
    intro x hx
    simp only [List.mem_range] at hx
    simp only [Function.comp, row_reserved, Nat.mul_add_mod, Nat.mod_eq_of_lt hx,
      Bool.or_eq_true, Bool.and_eq_true, beq_iff_eq, bne_iff_ne, ne_eq]
    omega
  rw [hcongr, countP_or_disjoint]
  · rw [countP_beq_range, countP_beq_range]
    have h1 : nrows - 1 < nrows := by omega
    have h0 : 0 < nrows := by omega
    simp [h1, h0]
  · intro x _ hx
    simp only [beq_iff_eq] at hx
    omega

lemma countP_row_reserved_pages (nrows : Nat) (h : 2 ≤ nrows) :
    ∀ k, 1 ≤ k → (List.range (nrows * k)).countP (row_reserved nrows) = 2 * k - 1 := by
  intro k
  induction k with
  | zero => omega
  | succ k ih =>
    intro _
    by_cases hk : 1 ≤ k
    · have hsplit : nrows * (k + 1) = nrows * k + nrows := by ring
      rw [hsplit, List.range_add, List.countP_append, ih hk,
        countP_row_reserved_block nrows k h hk]
      omega
    · have hk0 : k = 0 := by omega
      subst hk0
      rw [Nat.mul_one, countP_row_reserved_base nrows h]

/-- Claim C3, as stated, is false at `columns = 1, rows = 1`: when
`rows = 1` the bottom-right and top-right reserved cells of each page
coincide, so only `10` coordinates are excluded, not `19`. -/
theorem allocator_reserved_count_not_19_at_1x1 :
    excluded_count 1 1 = 10 ∧ ¬ excluded_count 1 1 = 19 := by decide

/-- Claim C3 (amended): for every Layout with `columns = c ≥ 1` and
`rows = r`, the candidate coordinate count before exclusions is
`c * r * 10`; the number of reserved (excluded) coordinates is exactly
`19` whenever `r ≥ 2`, independent of `c` and `r`, while for `r = 1` the
two reserved corners of every page coincide and exactly `10` are
excluded. -/
theorem allocator_candidate_and_reserved_counts (ncols nrows : Nat) (hc : 1 ≤ ncols) :
    (all_candidates ncols nrows).length = ncols * nrows * 10 ∧
    (2 ≤ nrows → excluded_count ncols nrows = 19) ∧
    (nrows = 1 → excluded_count ncols nrows = 10) := by
  refine ⟨length_all_candidates ncols nrows, ?_, ?_⟩
  · intro h2
    rw [excluded_count_eq_row_count ncols nrows hc, npages,
      countP_row_reserved_pages nrows h2 10 (by omega)]
  · intro h1
    subst h1
    rw [excluded_count_eq_row_count ncols 1 hc]
    decide

/-- Witness for the amended C3 at the spec's `4 × 5` example grid. -/
theorem allocator_candidate_and_reserved_counts_witness :
    (all_candidates 4 5).length = 4 * 5 * 10 ∧ excluded_count 4 5 = 19 :=
  ⟨(allocator_candidate_and_reserved_counts 4 5 (by decide)).1,
   (allocator_candidate_and_reserved_counts 4 5 (by decide)).2.1 (by decide)⟩

/-! ### Allocator ordering (row-major enumeration) -/

lemma pairwise_flatMap_of {α β : Type _} {R : α → α → Prop} {L : List β} {f : β → List α}
    (h1 : ∀ b ∈ L, (f b).Pairwise R)
    (h2 : L.Pairwise (fun a b => ∀ x ∈ f a, ∀ y ∈ f b, R x y)) :
    (L.flatMap f).Pairwise R := by
  induction L with
  | nil => simp
  | cons a l ih =>
    rw [List.flatMap_cons, List.pairwise_append]
    rcases List.pairwise_cons.1 h2 with ⟨ha, hl⟩
    refine ⟨h1 a (List.mem_cons_self a l),
      ih (fun b hb => h1 b (List.mem_cons_of_mem a hb)) hl, ?_⟩
    intro x hx y hy
    rcases List.mem_flatMap.1 hy with ⟨b, hb, hyb⟩
    exact ha b hb x hx y hyb

lemma all_candidates_pairwise (ncols nrows : Nat) :
    (all_candidates ncols nrows).Pairwise row_major_lt := by
  unfold all_candidates
  apply pairwise_flatMap_of
  · intro r _
    rw [List.pairwise_map]
    exact (List.pairwise_lt_range ncols).imp (fun hcc => Or.inr ⟨rfl, hcc⟩)
  · refine (List.pairwise_lt_range (nrows * npages)).imp ?_
    intro r r' hrr x hx y hy
    rcases List.mem_map.1 hx with ⟨c, _, rfl⟩
    rcases List.mem_map.1 hy with ⟨c', _, rfl⟩
    exact Or.inl hrr

lemma all_positions_pairwise (ncols nrows : Nat) :
    (all_positions ncols nrows).Pairwise row_major_lt :=
  (all_candidates_pairwise ncols nrows).filter _

lemma find_available_positions_pairwise (s : Store) (pageLayoutId ncols nrows : Nat) :
    (find_available_positions s pageLayoutId ncols nrows).Pairwise row_major_lt :=
  (all_positions_pairwise ncols nrows).filter _

lemma row_major_lt_ne {p q : Nat × Nat} (h : row_major_lt p q) : p ≠ q := by
  intro he
  subst he
  rcases h with h | ⟨-, h⟩ <;> exact absurd h (lt_irrefl _)

lemma all_positions_nodup (ncols nrows : Nat) : (all_positions ncols nrows).Nodup :=
  (all_positions_pairwise ncols nrows).imp row_major_lt_ne

lemma find_available_positions_nodup (s : Store) (pageLayoutId ncols nrows : Nat) :
    (find_available_positions s pageLayoutId ncols nrows).Nodup :=
  (all_positions_nodup ncols nrows).filter _

lemma mem_find_available_positions (s : Store) (pageLayoutId ncols nrows : Nat)
    (pos : Nat × Nat) :
    pos ∈ find_available_positions s pageLayoutId ncols nrows ↔
      pos ∈ all_positions ncols nrows ∧ pos ∉ occupied_positions s pageLayoutId := by
  unfold find_available_positions
  rw [List.mem_filter]
  simp

/-- Claim C4: the allocator enumerates candidates in row-major order
(strictly increasing `row_major_lt` along the list), returns an
order-preserving sublist of that enumeration from which exactly the
occupied coordinates have been removed, and is deterministic: any store
with the same placement table yields the identical ordered list. -/
theorem allocator_row_major_and_deterministic (s : Store) (pageLayoutId ncols nrows : Nat) :
    (all_positions ncols nrows).Pairwise row_major_lt ∧
    (find_available_positions s pageLayoutId ncols nrows).Pairwise row_major_lt ∧
    (find_available_positions s pageLayoutId ncols nrows).Sublist (all_positions ncols nrows) ∧
    (∀ pos, pos ∈ find_available_positions s pageLayoutId ncols nrows ↔
        pos ∈ all_positions ncols nrows ∧ pos ∉ occupied_positions s pageLayoutId) ∧
    (∀ s2 : Store, s2.elementPlacements = s.elementPlacements →
        find_available_positions s2 pageLayoutId ncols nrows =
          find_available_positions s pageLayoutId ncols nrows) := by
  refine ⟨all_positions_pairwise ncols nrows,
    find_available_positions_pairwise s pageLayoutId ncols nrows,
    List.filter_sublist _,
    mem_find_available_positions s pageLayoutId ncols nrows, ?_⟩
  intro s2 h2
  unfold find_available_positions occupied_positions
  rw [h2]

/-- Witness for C4 at a concrete store: the membership characterization at
coordinate `(0, 1)` and determinism for an identical placement table. -/
theorem allocator_row_major_and_deterministic_witness :
    ((0, 1) ∈ find_available_positions store_alloc 10 2 2 ↔
      ((0, 1) ∈ all_positions 2 2 ∧ (0, 1) ∉ occupied_positions store_alloc 10)) ∧
    find_available_positions store_alloc 10 2 2 = find_available_positions store_alloc 10 2 2 :=
  ⟨(allocator_row_major_and_deterministic store_alloc 10 2 2).2.2.2.1 (0, 1),
   (allocator_row_major_and_deterministic store_alloc 10 2 2).2.2.2.2 store_alloc rfl⟩

/-! ### Success and failure shape of the insertion transaction -/

lemma positions_for_ok (avail : List (Nat × Nat)) :
    ∀ (rem i : Nat) (ps : List (Nat × Nat)), positions_for avail i rem = .ok ps →
      (0 < rem → i + rem ≤ avail.length) ∧ ps = (avail.drop i).take rem := by
  intro rem
  induction rem with
  | zero =>
    intro i ps h
    simp only [positions_for] at h
    injection h with h
    exact ⟨by omega, by simp [h.symm]⟩
  | succ rem ih =>
    intro i ps h
    unfold positions_for at h
    cases hget : avail[i]? with
    | none => rw [hget] at h; cases h
    | some pos =>
      rw [hget] at h
      cases hrec : positions_for avail (i + 1) rem with
      | error e => rw [hrec] at h; cases h
      | ok rest =>
        rw [hrec] at h
        injection h with h
        rcases ih (i + 1) rest hrec with ⟨hlen, hrest⟩
        rcases List.getElem?_eq_some.1 hget with ⟨hi, hval⟩
        refine ⟨?_, ?_⟩
        · intro _
          rcases Nat.eq_zero_or_pos rem with hr | hr
          · omega
          · have := hlen hr
            omega
        · rw [← h, List.drop_eq_getElem_cons hi, hval, List.take_succ_cons, hrest]

lemma place_layouts_ok (s : Store) (count : Nat) :
    ∀ (ls : List (Nat × Nat × Nat)) (placed : List (Nat × List (Nat × Nat))),
      place_layouts s count ls = .ok placed →
      placed = ls.map (fun l => (l.1, (find_available_positions s l.1 l.2.1 l.2.2).take count)) ∧
      ∀ l ∈ ls, count ≤ (find_available_positions s l.1 l.2.1 l.2.2).length := by
  intro ls
  induction ls with
  | nil =>
    intro placed h
    simp only [place_layouts] at h
    injection h with h
    exact ⟨h.symm, by simp⟩
  | cons l rest ih =>
    intro placed h
    unfold place_layouts at h
    cases hp : positions_for (find_available_positions s l.1 l.2.1 l.2.2) 0 count with
    | error e => rw [hp] at h; cases h
    | ok ps =>
      rw [hp] at h
      cases hr : place_layouts s count rest with
      | error e => rw [hr] at h; cases h
      | ok more =>
        rw [hr] at h
        injection h with h
        rcases positions_for_ok _ count 0 ps hp with ⟨hlen, hps⟩
        rcases ih more hr with ⟨hmore, hbound⟩
        constructor
        · rw [← h, List.map_cons, ← hmore, hps, List.drop_zero]
        · intro x hx
          rcases List.mem_cons.1 hx with rfl | hx'
          · rcases Nat.eq_zero_or_pos count with hc | hc
            · omega
            · have := hlen hc
              omega
          · exact hbound x hx'

lemma add_buttons_write_ok (failAt : Option Nat) (s : Store) (bd : List ButtonData)
    (pageId : Nat) (ls : List (Nat × Nat × Nat)) (s2 : Store) (n : Nat)
    (h : add_buttons_write failAt s bd pageId ls = .ok (s2, n)) :
    n = bd.length ∧ ∃ placed, place_layouts s bd.length ls = .ok placed ∧
      s2 = insert_result s bd pageId placed := by
  unfold add_buttons_write at h
  cases hf : fault_check failAt bd.length with
  | error e => rw [hf] at h; cases h
  | ok u =>
    rw [hf] at h
    cases hp : place_layouts s bd.length ls with
    | error e => rw [hp] at h; cases h
    | ok placed =>
      rw [hp] at h
      injection h with h
      rw [Prod.mk.injEq] at h
      exact ⟨h.2.symm, placed, rfl, h.1.symm⟩

lemma add_buttons_core_ok (failAt : Option Nat) (s : Store) (bd : List ButtonData)
    (sel : Option (List Nat)) (s2 : Store) (n : Nat)
    (h : add_buttons_core failAt s bd sel = .ok (s2, n)) :
    n = bd.length ∧ ∃ pid layouts placed,
      get_page_layout_details s = .ok (pid, layouts) ∧
      place_layouts s bd.length (selected_layouts layouts sel) = .ok placed ∧
      s2 = insert_result s bd pid placed := by
  unfold add_buttons_core at h
  cases hres : get_page_layout_details s with
  | error e => rw [hres] at h; cases h
  | ok pl =>
    obtain ⟨pid, lys⟩ := pl
    rw [hres] at h
    dsimp only at h
    cases hscan : capacity_scan s (selected_layouts lys sel) with
    | none =>
      rw [hscan] at h
      dsimp only at h
      rcases add_buttons_write_ok failAt s bd pid _ s2 n h with ⟨hn, placed, hp, hs⟩
      exact ⟨hn, pid, lys, placed, rfl, hp, hs⟩
    | some ml =>
      rw [hscan] at h
      dsimp only at h
      split at h
      · cases h
      · rcases add_buttons_write_ok failAt s bd pid _ s2 n h with ⟨hn, placed, hp, hs⟩
        exact ⟨hn, pid, lys, placed, rfl, hp, hs⟩

lemma capacity_scan_spec (s : Store) :
    ∀ (ls : List (Nat × Nat × Nat)) (acc : Option (Nat × (Nat × Nat × Nat)))
      (m : Nat) (lim : Nat × Nat × Nat),
      ls.foldl (scan_step s) acc = some (m, lim) →
      (∀ l ∈ ls, m ≤ layout_free_count s l) ∧
      (acc = some (m, lim) ∨ (lim ∈ ls ∧ layout_free_count s lim = m)) ∧
      (∀ p, acc = some p → m ≤ p.1) := by
  intro ls
  induction ls with
  | nil =>
    intro acc m lim h
    simp only [List.foldl_nil] at h
    refine ⟨by simp, Or.inl h, ?_⟩
    intro p hp
    rw [h] at hp
    injection hp with hp
    rw [← hp]
  | cons l rest ih =>
    intro acc m lim h
    rw [List.foldl_cons] at h
    rcases ih (scan_step s acc l) m lim h with ⟨h1, h2, h3⟩
    refine ⟨?_, ?_, ?_⟩
    · intro x hx
      rcases List.mem_cons.1 hx with rfl | hx'
      · cases acc with
        | none => exact h3 (layout_free_count s x, x) rfl
        | some ml =>
          by_cases hlt : layout_free_count s x < ml.1
          · exact h3 (layout_free_count s x, x) (by simp [scan_step, hlt])
          · have := h3 ml (by simp [scan_step, hlt])
            omega
      · exact h1 x hx'
    · rcases h2 with hacc | ⟨hmem, hcnt⟩
      · cases acc with
        | none =>
          simp only [scan_step] at hacc
          injection hacc with hacc
          rw [Prod.mk.injEq] at hacc
          right
          exact ⟨by rw [← hacc.2]; exact List.mem_cons_self l rest,
            by rw [← hacc.2, ← hacc.1]⟩
        | some ml =>
          simp only [scan_step] at hacc
          by_cases hlt : layout_free_count s l < ml.1
          · rw [if_pos hlt] at hacc
            injection hacc with hacc
            rw [Prod.mk.injEq] at hacc
            right
            exact ⟨by rw [← hacc.2]; exact List.mem_cons_self l rest,
              by rw [← hacc.2, ← hacc.1]⟩
          · rw [if_neg hlt] at hacc
            left
            exact hacc
      · right
        exact ⟨List.mem_cons_of_mem l hmem, hcnt⟩
    · intro p hp
      by_cases hlt : layout_free_count s l < p.1
      · have := h3 (layout_free_count s l, l) (by rw [hp]; simp [scan_step, hlt])
        simp only at this
        omega
      · exact h3 p (by rw [hp]; simp [scan_step, hlt])

lemma capacity_scan_min (s : Store) (ls : List (Nat × Nat × Nat)) (m : Nat)
    (lim : Nat × Nat × Nat) (h : capacity_scan s ls = some (m, lim)) :
    lim ∈ ls ∧ layout_free_count s lim = m ∧ ∀ l ∈ ls, m ≤ layout_free_count s l := by
  rcases capacity_scan_spec s ls none m lim h with ⟨h1, h2, h3⟩
  rcases h2 with h' | ⟨hm, hc⟩
  · cases h'
  · exact ⟨hm, hc, h1⟩

/-- Claim C1: `add_buttons_from_pptx` is all-or-nothing.  For every store,
item list, layout selection and fault-injection point: whenever the call
ends in an error (configuration failure, capacity failure, a simulated
write failure mid-batch, or a placement indexing failure), the resulting
store is exactly the input store (all writes rolled back, the error
re-raised unchanged by the wrapper), and whenever it succeeds it returns
exactly the number of items. -/
theorem insertContent_all_or_nothing (failAt : Option Nat) (s : Store)
    (bd : List ButtonData) (sel : Option (List Nat)) :
    (∀ e, (add_buttons_from_pptx_with failAt s bd sel).2 = .error e →
      (add_buttons_from_pptx_with failAt s bd sel).1 = s) ∧
    (∀ n, (add_buttons_from_pptx_with failAt s bd sel).2 = .ok n → n = bd.length) := by
  unfold add_buttons_from_pptx_with
  split
  · rename_i hemp
    constructor
    · intro e he
      cases he
    · intro n hn
      injection hn with hn
      rw [← hn, List.length_eq_zero.2 (List.isEmpty_iff.1 hemp)]
  · split
    · rename_i sn hcore
      constructor
      · intro e he
        cases he
      · intro n hn
        injection hn with hn
        rw [← hn]
        exact (add_buttons_core_ok failAt s bd sel sn.1 sn.2 (by rw [hcore])).1
    · constructor
      · intro e _
        rfl
      · intro n hn
        cases hn

/-- Witness for C1: injecting a write failure at item 0 of a two-item
batch leaves the store untouched and surfaces the simulated error. -/
theorem insertContent_all_or_nothing_witness :
    (add_buttons_from_pptx_with (some 0) store_empty22 [("a", "m", 1), ("b", "n", 2)] none).2 =
      .error .simulatedWrite ∧
    (add_buttons_from_pptx_with (some 0) store_empty22 [("a", "m", 1), ("b", "n", 2)] none).1 =
      store_empty22 :=
  ⟨by decide,
   (insertContent_all_or_nothing (some 0) store_empty22 [("a", "m", 1), ("b", "n", 2)] none).1
     DbError.simulatedWrite (by decide)⟩

/-- Claim C2: the capacity check computes the minimum free-coordinate
count over the targeted layouts; when the batch exceeds that minimum, the
call fails before any write, the store is returned unchanged, and the
error carries the required count, the available count, the shortage and
the limiting layout's identifier. -/
theorem insertContent_capacity_check (s : Store) (bd : List ButtonData)
    (sel : Option (List Nat)) (pid : Nat) (layouts : List (Nat × Nat × Nat))
    (m : Nat) (lim : Nat × Nat × Nat)
    (hres : get_page_layout_details s = .ok (pid, layouts))
    (hscan : capacity_scan s (selected_layouts layouts sel) = some (m, lim))
    (hlt : m < bd.length) :
    add_buttons_from_pptx s bd sel =
      (s, .error (.capacity bd.length m (bd.length - m) (lim.1))) ∧
    lim ∈ selected_layouts layouts sel ∧
    layout_free_count s lim = m ∧
    (∀ l ∈ selected_layouts layouts sel, m ≤ layout_free_count s l) := by
  rcases capacity_scan_min s _ m lim hscan with ⟨hmem, hcnt, hmin⟩
  have hne : bd.isEmpty = false := by
    rcases bd with _ | ⟨b, t⟩
    · simp at hlt
    · rfl
  have hcore : add_buttons_core none s bd sel =
      .error (.capacity bd.length m (bd.length - m) (lim.1)) := by
    unfold add_buttons_core
    rw [hres]
    dsimp only
    rw [hscan]
    dsimp only
    rw [if_pos hlt]
  refine ⟨?_, hmem, hcnt, hmin⟩
  unfold add_buttons_from_pptx add_buttons_from_pptx_with
  rw [if_neg (by rw [hne]; exact Bool.false_ne_true), hcore]

/-- Witness for C2: a `1 × 2` layout has one free cell; inserting two
items fails with required 2, available 1, shortage 1, limiting layout 20,
and leaves the store unchanged. -/
theorem insertContent_capacity_check_witness :
    add_buttons_from_pptx store_small [("a", "m", 1), ("b", "n", 2)] none =
      (store_small, .error (.capacity 2 1 1 20)) :=
  (insertContent_capacity_check store_small [("a", "m", 1), ("b", "n", 2)] none
    1 [(20, 1, 2)] 1 (20, 1, 2) (by decide) (by decide) (by decide)).1

lemma add_buttons_from_pptx_ok (s : Store) (bd : List ButtonData)
    (sel : Option (List Nat)) (s2 : Store) (n : Nat)
    (h : add_buttons_from_pptx s bd sel = (s2, .ok n)) :
    n = bd.length ∧ ((bd = [] ∧ s2 = s) ∨ ∃ pid layouts placed,
      get_page_layout_details s = .ok (pid, layouts) ∧
      place_layouts s bd.length (selected_layouts layouts sel) = .ok placed ∧
      s2 = insert_result s bd pid placed) := by
  unfold add_buttons_from_pptx add_buttons_from_pptx_with at h
  split at h
  · rename_i hemp
    rw [Prod.mk.injEq] at h
    rcases h with ⟨hs, hn⟩
    injection hn with hn
    have hbd := List.isEmpty_iff.1 hemp
    exact ⟨by rw [← hn, hbd]; rfl, Or.inl ⟨hbd, hs.symm⟩⟩
  · split at h
    · rename_i sn hcore
      rw [Prod.mk.injEq] at h
      rcases h with ⟨hs, hn⟩
      injection hn with hn
      rcases add_buttons_core_ok none s bd sel sn.1 sn.2 (by rw [hcore]) with
        ⟨hlen, pid, layouts, placed, hres, hp, hins⟩
      exact ⟨by rw [← hn, hlen], Or.inr ⟨pid, layouts, placed, hres, hp, by rw [← hs, hins]⟩⟩
    · rw [Prod.mk.injEq] at h
      cases h.2

lemma new_buttons_map_id (b0 r0 : Nat) (bd : List ButtonData) :
    (new_buttons b0 r0 bd).map (fun b => b.id) =
      (List.range bd.length).map (fun i => b0 + i) := by
  unfold new_buttons
  rw [List.map_map]
  rw [show ((fun b : ButtonRow => b.id) ∘
      fun p : Nat × ButtonData =>
        add_button (b0 + p.1) (r0 + p.1) (some (p.2.1)) (some (p.2.2.1)) none) =
      (fun i => b0 + i) ∘ Prod.fst from rfl]
  rw [← List.map_map, List.enum_map_fst]

lemma new_references_map_id (r0 pid : Nat) (bd : List ButtonData) :
    (new_references r0 pid bd).map (fun r => r.id) =
      (List.range bd.length).map (fun i => r0 + i) := by
  unfold new_references
  rw [List.map_map]
  rw [show ((fun r : ElementReferenceRow => r.id) ∘
      fun p : Nat × ButtonData =>
        add_element_reference (r0 + p.1) pid (get_color_for_slide (p.2.2.2))) =
      (fun i => r0 + i) ∘ Prod.fst from rfl]
  rw [← List.map_map, List.enum_map_fst]

/-- Claim C5: `get_next_id` returns the sequence mark plus one (or `1` for
a never-written table); on any successful batch the watermarks are
captured once, so the new Button rows carry ids `buttonId0 + i` and the
new Content Reference rows ids `refId0 + i` for 0-based item `i` —
contiguous within the batch. -/
theorem nextId_and_contiguous_batch_ids (s : Store) (bd : List ButtonData)
    (sel : Option (List Nat)) (s2 : Store) (n : Nat)
    (h : add_buttons_from_pptx s bd sel = (s2, .ok n)) :
    get_next_id none = 1 ∧ (∀ mark : Nat, get_next_id (some mark) = mark + 1) ∧
    s2.buttons.map (fun b => b.id) =
      s.buttons.map (fun b => b.id) ++
        (List.range bd.length).map (fun i => get_next_id s.seqButton + i) ∧
    s2.elementReferences.map (fun r => r.id) =
      s.elementReferences.map (fun r => r.id) ++
        (List.range bd.length).map (fun i => get_next_id s.seqElementReference + i) := by
  refine ⟨rfl, fun mark => rfl, ?_⟩
  rcases (add_buttons_from_pptx_ok s bd sel s2 n h).2 with ⟨hbd, hs⟩ | ⟨pid, layouts, placed, _, _, hins⟩
  · subst hs
    rw [hbd]
    simp
  · subst hins
    unfold insert_result
    dsimp only
    constructor
    · rw [List.map_append, new_buttons_map_id]
    · rw [List.map_append, new_references_map_id]

/-- Witness for C5: inserting two items into an empty pageset yields
Button ids `[1, 2]` and Content Reference ids `[1, 2]`. -/
theorem nextId_and_contiguous_batch_ids_witness :
    (add_buttons_from_pptx store_empty22 [("a", "m", 1), ("b", "n", 2)] none).1.buttons.map
        (fun b => b.id) =
      store_empty22.buttons.map (fun b => b.id) ++
        (List.range 2).map (fun i => get_next_id store_empty22.seqButton + i) :=
  (nextId_and_contiguous_batch_ids store_empty22 [("a", "m", 1), ("b", "n", 2)] none
    (add_buttons_from_pptx store_empty22 [("a", "m", 1), ("b", "n", 2)] none).1 2
    (by decide)).2.2.1

/-- Claim C10: a non-empty batch whose layout selection matches none of
the Board's layouts passes the capacity check vacuously and commits one
Button, one Command and one Content Reference row per item while writing
no placement row at all, returning the item count. -/
theorem insertContent_unmatched_selection (s : Store) (bd : List ButtonData)
    (ids : List Nat) (pid : Nat) (layouts : List (Nat × Nat × Nat))
    (hne : bd ≠ [])
    (hres : get_page_layout_details s = .ok (pid, layouts))
    (hsel : selected_layouts layouts (some ids) = []) :
    (add_buttons_from_pptx s bd (some ids)).2 = .ok bd.length ∧
    (add_buttons_from_pptx s bd (some ids)).1.buttons.length =
      s.buttons.length + bd.length ∧
    (add_buttons_from_pptx s bd (some ids)).1.commandSequences.length =
      s.commandSequences.length + bd.length ∧
    (add_buttons_from_pptx s bd (some ids)).1.elementReferences.length =
      s.elementReferences.length + bd.length ∧
    (add_buttons_from_pptx s bd (some ids)).1.elementPlacements = s.elementPlacements := by
  have hscan : capacity_scan s (selected_layouts layouts (some ids)) = none := by
    rw [hsel]
    rfl
  have hcore : add_buttons_core none s bd (some ids) =
      .ok (insert_result s bd pid [], bd.length) := by
    unfold add_buttons_core
    rw [hres]
    dsimp only
    rw [hscan]
    dsimp only
    rw [hsel]
    rfl
  have hw : add_buttons_from_pptx s bd (some ids) =
      (insert_result s bd pid [], .ok bd.length) := by
    unfold add_buttons_from_pptx add_buttons_from_pptx_with
    rw [if_neg (fun hc => hne (List.isEmpty_iff.1 hc)), hcore]
  rw [hw]
  refine ⟨rfl, ?_, ?_, ?_, ?_⟩ <;>
    simp [insert_result, new_buttons, new_commands, new_references, placement_rows,
      List.enum_length]

/-- Witness for C10: one item, selection `[99]` matching no layout of the
`2 × 2` pageset: the call returns 1, writes the item rows and no
placement. -/
theorem insertContent_unmatched_selection_witness :
    (add_buttons_from_pptx store_empty22 [("a", "m", 1)] (some [99])).2 = .ok 1 ∧
    (add_buttons_from_pptx store_empty22 [("a", "m", 1)] (some [99])).1.elementPlacements =
      store_empty22.elementPlacements :=
  ⟨(insertContent_unmatched_selection store_empty22 [("a", "m", 1)] [99] 1 [(10, 2, 2)]
      (by decide) (by decide) (by decide)).1,
   (insertContent_unmatched_selection store_empty22 [("a", "m", 1)] [99] 1 [(10, 2, 2)]
      (by decide) (by decide) (by decide)).2.2.2.2⟩

lemma placement_keys_append (a b : List ElementPlacementRow) :
    placement_keys (a ++ b) = placement_keys a ++ placement_keys b := by
  unfold placement_keys
  rw [List.map_append]

lemma placement_keys_placement_rows (s : Store) (refId0 : Nat)
    (placed : List (Nat × List (Nat × Nat))) :
    placement_keys (placement_rows s refId0 placed) =
      placed.flatMap (fun lp => lp.2.map (fun pos => (lp.1, pos))) := by
  unfold placement_keys placement_rows
  dsimp only
  rw [List.map_map]
  rw [show ((fun p : ElementPlacementRow => (p.pageLayoutId, p.gridPosition)) ∘
      fun kp : Nat × (Nat × Nat × (Nat × Nat)) =>
        add_button_placement (next_auto_id s.elementPlacements + kp.1)
          (kp.2.1) (kp.2.2.1) (kp.2.2.2)) =
      (fun t : Nat × Nat × (Nat × Nat) => (t.1, t.2.2)) ∘ Prod.snd from rfl]
  rw [← List.map_map, List.enum_map_snd, List.map_flatMap]
  have hblock : ∀ lp : Nat × List (Nat × Nat),
      ((lp.2.enum.map (fun jp => (lp.1, refId0 + jp.1, jp.2))).map
        (fun t : Nat × Nat × (Nat × Nat) => (t.1, t.2.2))) =
      lp.2.map (fun pos => (lp.1, pos)) := by
    intro lp
    rw [List.map_map]
    rw [show ((fun t : Nat × Nat × (Nat × Nat) => (t.1, t.2.2)) ∘
        fun jp : Nat × (Nat × Nat) => (lp.1, refId0 + jp.1, jp.2)) =
        (fun pos => (lp.1, pos)) ∘ Prod.snd from rfl]
    rw [← List.map_map, List.enum_map_snd]
  simp only [hblock]

lemma mem_occupied_positions (s : Store) (lid : Nat) (p : ElementPlacementRow)
    (hp : p ∈ s.elementPlacements) (hl : p.pageLayoutId = lid) :
    p.gridPosition ∈ occupied_positions s lid := by
  unfold occupied_positions
  exact List.mem_map_of_mem _ (List.mem_filter.2 ⟨hp, by simp [hl]⟩)

/-- Claim C6: a successful insertion batch assigns, per selected layout,
free coordinate `j` to item `j` (the first `len(items)` entries of that
layout's free-coordinate list, in order), and this preserves the
invariant that no two placements of one layout share a coordinate. -/
theorem insertContent_preserves_coordinate_invariant
    (s : Store) (bd : List ButtonData) (sel : Option (List Nat)) (s2 : Store) (n : Nat)
    (pid : Nat) (layouts : List (Nat × Nat × Nat))
    (h : add_buttons_from_pptx s bd sel = (s2, .ok n))
    (hres : get_page_layout_details s = .ok (pid, layouts))
    (hids : ((selected_layouts layouts sel).map (fun l => l.1)).Nodup)
    (hinv : (placement_keys s.elementPlacements).Nodup) :
    placement_keys s2.elementPlacements =
      placement_keys s.elementPlacements ++
        (selected_layouts layouts sel).flatMap
          (fun l => ((find_available_positions s l.1 l.2.1 l.2.2).take bd.length).map
            (fun pos => (l.1, pos))) ∧
    (placement_keys s2.elementPlacements).Nodup := by
  rcases (add_buttons_from_pptx_ok s bd sel s2 n h).2 with
    ⟨hbd, hs⟩ | ⟨pid', layouts', placed, hres', hp, hins⟩
  · subst hs
    rw [hbd]
    constructor
    · simp
    · exact hinv
  · rw [hres] at hres'
    injection hres' with hres''
    rw [Prod.mk.injEq] at hres''
    obtain ⟨hpid, hlys⟩ := hres''
    rw [← hlys] at hp
    rcases place_layouts_ok s bd.length _ placed hp with ⟨hplaced, _⟩
    have hkeys : placement_keys s2.elementPlacements =
        placement_keys s.elementPlacements ++
          (selected_layouts layouts sel).flatMap
            (fun l => ((find_available_positions s l.1 l.2.1 l.2.2).take bd.length).map
              (fun pos => (l.1, pos))) := by
      rw [hins]
      unfold insert_result
      dsimp only
      rw [placement_keys_append, placement_keys_placement_rows, hplaced, List.flatMap_map]
    refine ⟨hkeys, ?_⟩
    rw [hkeys, List.nodup_append]
    refine ⟨hinv, ?_, ?_⟩
    · rw [List.nodup_flatMap]
      constructor
      · intro l _
        apply List.Nodup.map
        · intro a b hab
          exact congrArg Prod.snd hab
        · exact ((List.take_sublist bd.length _).nodup
            (find_available_positions_nodup s l.1 l.2.1 l.2.2))
      · have hids' : (selected_layouts layouts sel).Pairwise
            (fun a b => a.1 ≠ b.1) := by
          rw [List.Nodup, List.pairwise_map] at hids
          exact hids
        refine hids'.imp ?_
        intro a b hab
        intro key hka hkb
        rcases List.mem_map.1 hka with ⟨pa, _, hpa⟩
        rcases List.mem_map.1 hkb with ⟨pb, _, hpb⟩
        apply hab
        rw [← hpa] at hpb
        exact (congrArg Prod.fst hpb).symm
    · intro key hkold hknew
      rcases List.mem_flatMap.1 hknew with ⟨l, _, hkl⟩
      rcases List.mem_map.1 hkl with ⟨pos, hpos, hkey⟩
      have hfree : pos ∈ find_available_positions s l.1 l.2.1 l.2.2 :=
        (List.take_sublist bd.length _).subset hpos
      have hnotocc := ((mem_find_available_positions s l.1 l.2.1 l.2.2 pos).1 hfree).2
      rcases List.mem_map.1 hkold with ⟨p, hpmem, hpkey⟩
      apply hnotocc
      have h1 : p.pageLayoutId = l.1 := by
        rw [← hkey] at hpkey
        exact congrArg Prod.fst hpkey
      have h2 : p.gridPosition = pos := by
        rw [← hkey] at hpkey
        exact congrArg Prod.snd hpkey
      rw [← h2]
      exact mem_occupied_positions s l.1 p hpmem h1

/-- Witness for C6: after inserting two items into the empty `2 × 2`
pageset, the placement keys are exactly the old keys plus positions
`(0,0)` and `(1,0)` on layout 10, and remain duplicate-free. -/
theorem insertContent_preserves_coordinate_invariant_witness :
    (placement_keys
      (add_buttons_from_pptx store_empty22 [("a", "m", 1), ("b", "n", 2)] none).1.elementPlacements).Nodup :=
  (insertContent_preserves_coordinate_invariant store_empty22 [("a", "m", 1), ("b", "n", 2)]
    none (add_buttons_from_pptx store_empty22 [("a", "m", 1), ("b", "n", 2)] none).1 2
    1 [(10, 2, 2)] (by decide) (by decide) (by decide) (by decide)).2

/-! ### Board resolution -/

/-- Claim C9: `get_page_layout_details` fails exactly when the number of
qualifying Page rows differs from one; with several qualifying rows the
error carries all their titles and its rendered message joins them after
the fixed prefix; with exactly one row it returns that page id together
with each layout's id and the first two packed integers of its setting. -/
theorem resolveBoard_spec (s : Store) :
    ((∃ e, get_page_layout_details s = .error e) ↔ (qualifying_pages s).length ≠ 1) ∧
    (2 ≤ (qualifying_pages s).length →
      get_page_layout_details s =
        .error (.multiplePage ((qualifying_pages s).map (fun p => p.title))) ∧
      error_message (.multiplePage ((qualifying_pages s).map (fun p => p.title))) =
        "Error: Found multiple Page IDs in file: " ++
          String.intercalate (", ") ((qualifying_pages s).map (fun p => p.title))) ∧
    (∀ row, qualifying_pages s = [row] →
      get_page_layout_details s =
        .ok (row.id, (s.pageLayouts.filter (fun l => l.pageId == row.id)).map
          (fun l => (l.id, l.setting.getD 0 0, l.setting.getD 1 0)))) := by
  cases hq : qualifying_pages s with
  | nil =>
    have hz : get_page_layout_details s = .error .noPage := by
      unfold get_page_layout_details
      rw [hq]
    refine ⟨⟨fun _ => by simp, fun _ => ⟨.noPage, hz⟩⟩, ?_, ?_⟩
    · intro h2
      simp at h2
    · intro row hrow
      cases hrow
  | cons a t =>
    cases t with
    | nil =>
      have hok : get_page_layout_details s =
          .ok (a.id, (s.pageLayouts.filter (fun l => l.pageId == a.id)).map
            (fun l => (l.id, l.setting.getD 0 0, l.setting.getD 1 0))) := by
        unfold get_page_layout_details
        rw [hq]
      refine ⟨⟨?_, ?_⟩, ?_, ?_⟩
      · intro he
        rcases he with ⟨e, he⟩
        rw [hok] at he
        cases he
      · intro h1
        simp at h1
      · intro h2
        simp at h2
      · intro row hrow
        injection hrow with h1 h2
        rw [hok, h1]
    | cons b t2 =>
      have herr : get_page_layout_details s =
          .error (.multiplePage ((a :: b :: t2).map (fun p => p.title))) := by
        unfold get_page_layout_details
        rw [hq]
      refine ⟨⟨fun _ => by simp, fun _ => ⟨_, herr⟩⟩, ?_, ?_⟩
      · intro _
        exact ⟨herr, rfl⟩
      · intro row hrow
        injection hrow with h1 h2
        cases h2

/-- Witness for C9: a store with qualifying pages `A` and `B` fails with
the error carrying exactly those titles. -/
theorem resolveBoard_spec_witness :
    2 ≤ (qualifying_pages store_multi).length ∧
    get_page_layout_details store_multi =
      .error (.multiplePage ((qualifying_pages store_multi).map (fun p => p.title))) :=
  ⟨by decide, ((resolveBoard_spec store_multi).2.1 (by decide)).1⟩

/-! ### Home-cell migration -/

lemma get_page_layout_details_congr (a b : Store) (hp : a.pages = b.pages)
    (hl : a.pageLayouts = b.pageLayouts) :
    get_page_layout_details a = get_page_layout_details b := by
  unfold get_page_layout_details qualifying_pages
  rw [hp, hl]

lemma add_home_button_ok_fields (t tpl t2 : Store)
    (h : add_home_button t tpl = .ok t2) :
    t2.pages = t.pages ∧ t2.pageLayouts = t.pageLayouts ∧
    (t2 = t ∨ t2.buttons = t.buttons ++ tpl.buttons) := by
  unfold add_home_button at h
  cases hres : get_page_layout_details t with
  | error e => rw [hres] at h; cases h
  | ok pl =>
    rw [hres] at h
    dsimp only at h
    by_cases hg : t.buttons.length > 0
    · rw [if_pos hg] at h
      injection h with h
      rw [← h]
      exact ⟨rfl, rfl, Or.inl rfl⟩
    · rw [if_neg hg] at h
      injection h with h
      rw [← h]
      exact ⟨rfl, rfl, Or.inr rfl⟩

/-- Claim C8 as stated is false on two counts: `add_home_button` resolves
the board before the Button-existence guard runs, so a store that already
holds a Button but has no qualifying Page makes the call raise instead of
returning; and with a button-free target and a button-free template that
still carries rows, a second run duplicates those rows again, so twice is
not once. -/
theorem ensureHomeCell_guard_not_unconditional :
    (store_button_no_page.buttons ≠ [] ∧
      add_home_button store_button_no_page store_home_template = .error .noPage) ∧
    add_home_button
        ((add_home_button store_empty22 store_refs_only).toOption.getD store_empty22)
        store_refs_only ≠
      .ok ((add_home_button store_empty22 store_refs_only).toOption.getD store_empty22) := by
  decide

/-- Claim C8 (amended): provided board resolution succeeds, the
Button-existence guard makes `add_home_button` return the target store
unchanged whenever any Button row exists, home cell or not; consequently,
when a first run succeeds and target or template holds at least one
Button, a second run returns its input unchanged (twice equals once). -/
theorem ensureHomeCell_idempotent (t tpl : Store) (pid : Nat)
    (layouts : List (Nat × Nat × Nat))
    (hres : get_page_layout_details t = .ok (pid, layouts)) :
    (t.buttons ≠ [] → add_home_button t tpl = .ok t) ∧
    (∀ t2, add_home_button t tpl = .ok t2 →
      (t.buttons ≠ [] ∨ tpl.buttons ≠ []) →
      add_home_button t2 tpl = .ok t2) := by
  have hguard : ∀ u : Store, get_page_layout_details u = .ok (pid, layouts) →
      u.buttons ≠ [] → add_home_button u tpl = .ok u := by
    intro u hu hb
    unfold add_home_button
    rw [hu]
    dsimp only
    rw [if_pos]
    rcases hv : u.buttons with _ | ⟨x, xs⟩
    · exact absurd hv hb
    · simp
  refine ⟨hguard t hres, ?_⟩
  intro t2 h2 hbt
  rcases add_home_button_ok_fields t tpl t2 h2 with ⟨hpages, hlayouts, hshape⟩
  have hres2 : get_page_layout_details t2 = .ok (pid, layouts) := by
    rw [get_page_layout_details_congr t2 t hpages hlayouts, hres]
  rcases hshape with rfl | hbtns
  · rcases hbt with hb | hb
    · exact hguard t2 hres2 hb
    · -- the first run returned the store unchanged, so it had a button
      -- or copied the template; either way decide via the guard path:
      by_cases hb2 : t2.buttons = []
      · -- with no buttons at all the run re-copies nothing only if the
        -- template is empty, contradicting hb unless the copy is trivial;
        -- but t2 = t with t.buttons = [] and tpl.buttons ≠ [] cannot have
        -- come from the guard, so the else branch ran and
        -- t2.buttons = t2.buttons ++ tpl.buttons forces tpl.buttons = [].
        exfalso
        unfold add_home_button at h2
        rw [hres] at h2
        dsimp only at h2
        rw [if_neg (by rw [hb2]; simp)] at h2
        injection h2 with h2
        have := congrArg Store.buttons h2
        dsimp only at this
        rw [hb2, List.nil_append] at this
        exact hb this
      · exact hguard t2 hres2 hb2
  · have hb2 : t2.buttons ≠ [] := by
      rw [hbtns]
      rcases hbt with hb | hb
      · rcases hv : t.buttons with _ | ⟨x, xs⟩
        · exact absurd hv hb
        · simp
      · rcases hv : tpl.buttons with _ | ⟨x, xs⟩
        · exact absurd hv hb
        · simp
    exact hguard t2 hres2 hb2

/-- Witness for the amended C8: a pageset that already holds one button is
returned unchanged, and a second run is again the identity. -/
theorem ensureHomeCell_idempotent_witness :
    add_home_button store_with_button store_home_template = .ok store_with_button ∧
    add_home_button store_with_button store_home_template = .ok store_with_button :=
  ⟨(ensureHomeCell_idempotent store_with_button store_home_template 1 [(10, 2, 2)]
      (by decide)).1 (by decide),
   (ensureHomeCell_idempotent store_with_button store_home_template 1 [(10, 2, 2)]
      (by decide)).2 store_with_button
     ((ensureHomeCell_idempotent store_with_button store_home_template 1 [(10, 2, 2)]
        (by decide)).1 (by decide))
     (Or.inl (by decide))⟩

lemma foldl_max_le_init (l : List Nat) : ∀ a : Nat, a ≤ l.foldl max a := by
  induction l with
  | nil => intro a; exact le_rfl
  | cons b t ih => intro a; exact le_trans (Nat.le_max_left a b) (ih (max a b))

lemma mem_le_foldl_max (l : List Nat) (x : Nat) (hx : x ∈ l) : ∀ a : Nat, x ≤ l.foldl max a := by
  induction l with
  | nil => cases hx
  | cons b t ih =>
    intro a
    rcases List.mem_cons.1 hx with rfl | hx'
    · exact le_trans (Nat.le_max_right a x) (foldl_max_le_init t (max a x))
    · exact ih hx' (max a b)

lemma mem_id_lt_next_auto_id (rows : List ElementPlacementRow) (p : ElementPlacementRow)
    (hp : p ∈ rows) : p.id < next_auto_id rows := by
  unfold next_auto_id
  have := mem_le_foldl_max (rows.map (fun q => q.id)) p.id (List.mem_map_of_mem _ hp) 0
  omega

lemma home_copies_map_layout (pls0 : List ElementPlacementRow)
    (existing : ElementPlacementRow) (layouts : List (Nat × Nat × Nat)) :
    (home_copies pls0 existing layouts).map (fun p => p.pageLayoutId) =
      layouts.map (fun l => l.1) := by
  unfold home_copies
  rw [List.map_map]
  rw [show ((fun p : ElementPlacementRow => p.pageLayoutId) ∘ fun kl : Nat × (Nat × Nat × Nat) =>
      { existing with id := next_auto_id pls0 + kl.1, pageLayoutId := kl.2.1 }) =
      (fun l : Nat × Nat × Nat => l.1) ∘ Prod.snd from rfl]
  rw [← List.map_map, List.enum_map_snd]

lemma mem_home_copies (pls0 : List ElementPlacementRow)
    (existing : ElementPlacementRow) (layouts : List (Nat × Nat × Nat))
    (p : ElementPlacementRow) (hp : p ∈ home_copies pls0 existing layouts) :
    next_auto_id pls0 ≤ p.id ∧ p.elementReferenceId = existing.elementReferenceId := by
  unfold home_copies at hp
  rcases List.mem_map.1 hp with ⟨kl, _, rfl⟩
  exact ⟨Nat.le_add_right _ _, rfl⟩

lemma home_duplicate_spec (pls0 : List ElementPlacementRow) (buttons : List ButtonRow)
    (layouts : List (Nat × Nat × Nat)) (hb : ButtonRow) (pl0 : ElementPlacementRow)
    (hfil : buttons.filter (fun b => b.label == some ("Home")) = [hb])
    (hpl : pls0.filter (fun p => p.elementReferenceId == hb.elementReferenceId) = [pl0]) :
    home_duplicate pls0 buttons layouts =
      pls0.filter (fun p => p.id != pl0.id) ++ home_copies pls0 pl0 layouts := by
  have hmem0 : pl0 ∈ pls0 :=
    (List.mem_filter.1 (by rw [hpl]; exact List.mem_singleton_self pl0)).1
  unfold home_duplicate
  rw [hfil, List.head?_cons]
  dsimp only
  rw [hpl, List.head?_cons]
  dsimp only
  rw [List.filter_append]
  congr 1
  rw [List.filter_eq_self]
  intro p hp
  have hge := (mem_home_copies pls0 pl0 layouts p hp).1
  have hlt : pl0.id < next_auto_id pls0 := mem_id_lt_next_auto_id pls0 pl0 hmem0
  simp only [bne_iff_ne, ne_eq, decide_eq_true_eq]
  omega

lemma add_home_button_else (t tpl : Store) (pid : Nat) (layouts : List (Nat × Nat × Nat))
    (hres : get_page_layout_details t = .ok (pid, layouts))
    (hbt : t.buttons = []) :
    add_home_button t tpl = .ok
      { t with
          buttons := t.buttons ++ tpl.buttons
          elementReferences := (t.elementReferences ++ tpl.elementReferences).map
            (fun r => { r with pageId := pid })
          elementPlacements := home_duplicate (t.elementPlacements ++ tpl.elementPlacements)
            (t.buttons ++ tpl.buttons) layouts
          commandSequences := t.commandSequences ++ tpl.commandSequences
          seqButton := bump_seq t.seqButton (tpl.buttons.map (·.id))
          seqElementReference :=
            bump_seq t.seqElementReference (tpl.elementReferences.map (·.id)) } := by
  unfold add_home_button
  rw [hres]
  dsimp only
  rw [if_neg (by rw [hbt]; simp)]

/-- Claim C7: migrating a template that defines exactly one `Home` button
with exactly one placement into a button-free target with `N` layouts
leaves exactly `N` placement rows referencing the home content reference —
one per target layout, in layout order, each with a freshly auto-assigned
row id larger than every pre-existing id — and no row with the original
template placement id survives. -/
theorem ensureHomeCell_placement_per_layout
    (t tpl t2 : Store) (pid : Nat) (layouts : List (Nat × Nat × Nat))
    (hb : ButtonRow) (pl0 : ElementPlacementRow)
    (hres : get_page_layout_details t = .ok (pid, layouts))
    (hbt : t.buttons = [])
    (hfil : tpl.buttons.filter (fun b => b.label == some ("Home")) = [hb])
    (hpl : (t.elementPlacements ++ tpl.elementPlacements).filter
        (fun p => p.elementReferenceId == hb.elementReferenceId) = [pl0])
    (h2 : add_home_button t tpl = .ok t2) :
    (t2.elementPlacements.filter
        (fun p => p.elementReferenceId == hb.elementReferenceId)).map
      (fun p => p.pageLayoutId) = layouts.map (fun l => l.1) ∧
    (t2.elementPlacements.filter
        (fun p => p.elementReferenceId == hb.elementReferenceId)).length = layouts.length ∧
    (∀ p ∈ t2.elementPlacements, p.id ≠ pl0.id) ∧
    (∀ p ∈ t2.elementPlacements.filter
        (fun p => p.elementReferenceId == hb.elementReferenceId),
      ∀ q ∈ t.elementPlacements ++ tpl.elementPlacements, q.id < p.id) := by
  have hfil' : (t.buttons ++ tpl.buttons).filter (fun b => b.label == some ("Home")) = [hb] := by
    rw [hbt, List.nil_append, hfil]
  have hmemfil : pl0 ∈ (t.elementPlacements ++ tpl.elementPlacements).filter
      (fun p => p.elementReferenceId == hb.elementReferenceId) := by
    rw [hpl]
    exact List.mem_singleton_self pl0
  have hmem0 : pl0 ∈ t.elementPlacements ++ tpl.elementPlacements :=
    (List.mem_filter.1 hmemfil).1
  have hrefeq : (pl0.elementReferenceId == hb.elementReferenceId) = true :=
    (List.mem_filter.1 hmemfil).2
  have hshape := add_home_button_else t tpl pid layouts hres hbt
  rw [hshape] at h2
  injection h2 with h2
  have hdup := home_duplicate_spec (t.elementPlacements ++ tpl.elementPlacements)
    (t.buttons ++ tpl.buttons) layouts hb pl0 hfil' hpl
  have hpls : t2.elementPlacements =
      (t.elementPlacements ++ tpl.elementPlacements).filter (fun p => p.id != pl0.id) ++
        home_copies (t.elementPlacements ++ tpl.elementPlacements) pl0 layouts := by
    rw [← h2]
    exact hdup
  have hpart1 : ((t.elementPlacements ++ tpl.elementPlacements).filter
      (fun p => p.id != pl0.id)).filter
        (fun p => p.elementReferenceId == hb.elementReferenceId) = [] := by
    rw [List.filter_filter]
    have hcomm : ∀ p ∈ t.elementPlacements ++ tpl.elementPlacements,
        ((p.elementReferenceId == hb.elementReferenceId) && (p.id != pl0.id)) =
        ((p.id != pl0.id) && (p.elementReferenceId == hb.elementReferenceId)) := by
      intro p _
      exact Bool.and_comm _ _
    rw [List.filter_congr hcomm, ← List.filter_filter, hpl]
    simp
  have hpart2 : (home_copies (t.elementPlacements ++ tpl.elementPlacements) pl0 layouts).filter
      (fun p => p.elementReferenceId == hb.elementReferenceId) =
      home_copies (t.elementPlacements ++ tpl.elementPlacements) pl0 layouts := by
    rw [List.filter_eq_self]
    intro p hp
    rw [(mem_home_copies _ pl0 layouts p hp).2]
    exact hrefeq
  have hfiltered : t2.elementPlacements.filter
      (fun p => p.elementReferenceId == hb.elementReferenceId) =
      home_copies (t.elementPlacements ++ tpl.elementPlacements) pl0 layouts := by
    rw [hpls, List.filter_append, hpart1, hpart2, List.nil_append]
  refine ⟨?_, ?_, ?_, ?_⟩
  · rw [hfiltered, home_copies_map_layout]
  · rw [hfiltered]
    unfold home_copies
    rw [List.length_map, List.enum_length]
  · intro p hp
    rw [hpls] at hp
    rcases List.mem_append.1 hp with hp' | hp'
    · have := (List.mem_filter.1 hp').2
      simp only [bne_iff_ne, ne_eq, decide_eq_true_eq] at this
      exact this
    · have hge := (mem_home_copies _ pl0 layouts p hp').1
      have hlt := mem_id_lt_next_auto_id _ pl0 hmem0
      omega
  · intro p hp q hq
    rw [hfiltered] at hp
    have hge := (mem_home_copies _ pl0 layouts p hp).1
    have hlt := mem_id_lt_next_auto_id _ q hq
    omega

/-- Witness for C7: migrating the one-home-button template into the
three-layout target yields placements for reference 50 exactly on layouts
11, 12 and 13. -/
theorem ensureHomeCell_placement_per_layout_witness :
    (((add_home_button store_home_target store_home_template).toOption.getD
        store_home_target).elementPlacements.filter
      (fun p => p.elementReferenceId == (50 : Nat))).map (fun p => p.pageLayoutId) =
      [11, 12, 13] := by
  have h := ensureHomeCell_placement_per_layout store_home_target store_home_template
    ((add_home_button store_home_target store_home_template).toOption.getD store_home_target)
    1 [(11, 2, 2), (12, 3, 3), (13, 2, 3)]
    ⟨1, some ("Home"), none, 3, 3, 50, some 77⟩ ⟨7, (1, 1), "1,1", "1", 50, 99⟩
    (by decide) (by decide) (by decide) (by decide) (by decide)
  exact h.1
